import Mathlib

/-!
Shallow embedding of the thumbnail conversion service of `allmark`
(`src/services/thumbnail/service.go`), together with proofs of the
behavioural properties claimed in the specification.

Modelling conventions:
* machine strings are `String`, routes are `String` (the Go `route.Route`
  values are rendered paths), `uint` dimensions are `Nat`;
* every external collaborator call (`route.Combine`, `fsutil.OpenFile`,
  `imageconversion.*`, `file.Data`/`Resize`) is a field of an `Env`
  record of deterministic functions, so 'no repository change' between
  passes is expressed by reusing the same `Env` and the same files;
* fallible Go calls return `Except String α`;
* the observable actions of a pass are recorded in a list of `Event`s:
  a `visit` at every `createThumbnail` entry, an `openTarget` when the
  output file is created, a `resizeCall` when the resize capability is
  invoked, and a `sleep` for every `time.Sleep`;
* a Go panic is modelled by the `Outcome.panicked` result, which aborts
  the rest of the pass (in Go a panic in the conversion goroutine kills
  the process).
-/

namespace Allmark

/-- Result of one unit of work: `panicked` models a Go runtime panic. -/
inductive Outcome where
| normal : Outcome
| panicked : Outcome
deriving DecidableEq, Repr

/-- A thumbnail record, as stored in the index (`Thumb` in the Go code):
the combined source-file route, the generated file name and the target
bounds. -/
structure Thumb where
route : String
fileName : String
maxWidth : Nat
maxHeight : Nat
deriving DecidableEq, Repr

/-- Modelled from the spec: the canonical rendering of a dimension pair
used as the index's inner key (`Dimensions.String()` lives in the
package's index file, which is not under `src/`); the spec gives the
form `"200x0"`. -/
def dimKey (w h : Nat) : String :=
  Nat.repr w ++ "x" ++ Nat.repr h

/-- The inner index key of a thumbnail record. -/
def thumbKey (t : Thumb) : String :=
  dimKey t.maxWidth t.maxHeight

/-- Modelled from the spec: `newThumb` (in the package's index file, not
under `src/`) packages the combined route, file name and bounds into a
record, as used by `createThumbnail`. -/
def newThumb (route fileName : String) (maxWidth maxHeight : Nat) : Thumb :=
  ⟨route, fileName, maxWidth, maxHeight⟩

/-- The index: an association list mirroring the Go
`map[route]map[string]Thumb` (outer key: combined source route, inner
key: rendered dimensions). -/
abbrev Index := List (String × List (String × Thumb))

/-- Association-list lookup (Go map read). -/
def lookupAL {β : Type} : List (String × β) → String → Option β
| [], _ => none
| (k', v) :: rest, k => if k' = k then some v else lookupAL rest k

/-- Association-list insert-or-replace (Go map write). -/
def insertAL {β : Type} : List (String × β) → String → β → List (String × β)
| [], k, v => [(k, v)]
| (k', v') :: rest, k, v =>
    if k' = k then (k, v) :: rest else (k', v') :: insertAL rest k v

/-- The record stored in the index at `(route, key)`, if any. -/
def findIdx (idx : Index) (r k : String) : Option Thumb :=
  lookupAL ((lookupAL idx r).getD []) k

/-- `isInIndex` from `service.go`: the route entry must exist and contain
the rendered-dimension key. -/
def isInIndex (idx : Index) (t : Thumb) : Bool :=
  match lookupAL idx t.route with
  | none => false
  | some thumbs => (lookupAL thumbs (thumbKey t)).isSome

/-- `addToIndex` from `service.go`: fetch (or freshly make) the inner map
for the route, store the record under its dimension key, store the inner
map back. -/
def addToIndex (idx : Index) (t : Thumb) : Index :=
  insertAL idx t.route (insertAL ((lookupAL idx t.route).getD []) (thumbKey t) t)

/-- A repository file (`dataaccess.File`): stable id, parent route, own
route, and the (deterministic) result of `MimeType()`. -/
structure File where
id : String
parent : String
route : String
mimeType : Except String String
deriving Repr

/-- A repository item: its files, in enumeration order. -/
structure Item where
files : List File
deriving Repr

/-- The external collaborators of the worker, as deterministic functions:
`imageconversion.MimeTypeIsSupported`, `GetFileExtensionFromMimeType`,
`route.Combine`, `fsutil.OpenFile` (keyed by target path), and the
combined `file.Data` + `imageconversion.Resize` call (keyed by file,
media type and bounds).  `thumbnailFolder` is the service's output
directory field. -/
structure Env where
mimeTypeIsSupported : String → Bool
getFileExtensionFromMimeType : String → String
combine : String → String → Except String String
openFile : String → Except String Unit
resize : File → String → Nat → Nat → Except String Unit
thumbnailFolder : String

/-- The deterministic artifact name
`fmt.Sprintf("%s-%v-%v.%s", file.Id(), maxWidth, maxHeight, fileExtension)`. -/
def thumbFilename (fileId : String) (w h : Nat) (ext : String) : String :=
  fileId ++ "-" ++ Nat.repr w ++ "-" ++ Nat.repr h ++ "." ++ ext

/-- The thumbnail record `createThumbnail` builds for a file once the
media type and the combined route are known. -/
def thumbFor (env : Env) (f : File) (m : String) (fullRoute : String) (w h : Nat) : Thumb :=
  newThumb fullRoute (thumbFilename f.id w h (env.getFileExtensionFromMimeType m)) w h

/-- An observable action of the worker. -/
inductive Event where
| visit (fileId : String) (w h : Nat) : Event
| openTarget (t : Thumb) : Event
| resizeCall (t : Thumb) : Event
| sleep (n : Nat) : Event
deriving DecidableEq, Repr

/-- State threaded through a pass: current index, event log so far, and
whether a panic has occurred. -/
abbrev StepSt := Index × List Event × Outcome

/-- `createThumbnail` from `service.go`, for one file and one dimension
pair.  The check order mirrors the source: mime-type detection, supported
check, file-name computation, route combination, index check, output
open, resize, index insert.  In the resize-failure branch the source logs
`err.Error()` where `err` is the error of the (successful) `OpenFile`
call, i.e. a nil interface: evaluating `Error()` on it is a nil-pointer
dereference, so that branch ends in `Outcome.panicked`. -/
def createThumbnail (env : Env) (f : File) (maxWidth maxHeight : Nat) (idx : Index) : StepSt :=
  match f.mimeType with
  | Except.error _ => (idx, [Event.visit f.id maxWidth maxHeight], Outcome.normal)
  | Except.ok m =>
    if !env.mimeTypeIsSupported m then
      (idx, [Event.visit f.id maxWidth maxHeight], Outcome.normal)
    else
      match env.combine f.parent f.route with
      | Except.error _ => (idx, [Event.visit f.id maxWidth maxHeight], Outcome.normal)
      | Except.ok fullRoute =>
        if isInIndex idx (thumbFor env f m fullRoute maxWidth maxHeight) then
          (idx, [Event.visit f.id maxWidth maxHeight], Outcome.normal)
        else
          match env.openFile (env.thumbnailFolder ++ "/" ++
              thumbFilename f.id maxWidth maxHeight (env.getFileExtensionFromMimeType m)) with
          | Except.error _ => (idx, [Event.visit f.id maxWidth maxHeight], Outcome.normal)
          | Except.ok _ =>
            match env.resize f m maxWidth maxHeight with
            | Except.error _ =>
                (idx,
                 [Event.visit f.id maxWidth maxHeight,
                  Event.openTarget (thumbFor env f m fullRoute maxWidth maxHeight),
                  Event.resizeCall (thumbFor env f m fullRoute maxWidth maxHeight)],
                 Outcome.panicked)
            | Except.ok _ =>
                (addToIndex idx (thumbFor env f m fullRoute maxWidth maxHeight),
                 [Event.visit f.id maxWidth maxHeight,
                  Event.openTarget (thumbFor env f m fullRoute maxWidth maxHeight),
                  Event.resizeCall (thumbFor env f m fullRoute maxWidth maxHeight)],
                 Outcome.normal)

/-- Sequence one `createThumbnail` call after the work so far; a pending
panic aborts the call (the goroutine is dead). -/
def thumbStep (env : Env) (f : File) (w h : Nat) (st : StepSt) : StepSt :=
  match st with
  | (idx, log, Outcome.panicked) => (idx, log, Outcome.panicked)
  | (idx, log, Outcome.normal) =>
      let r := createThumbnail env f w h idx
      (r.1, log ++ r.2.1, r.2.2)

/-- The per-file body of `createThumbnails`: the three fixed dimension
pairs (200,0), (400,0), (800,0), then `time.Sleep(5 * time.Second)`. -/
def processFile (env : Env) (f : File) (st : StepSt) : StepSt :=
  match thumbStep env f 800 0 (thumbStep env f 400 0 (thumbStep env f 200 0 st)) with
  | (idx, log, Outcome.normal) => (idx, log ++ [Event.sleep 5], Outcome.normal)
  | p => p

/-- The inner loop of `createThumbnails`: every file of one item. -/
def passFiles (env : Env) (files : List File) (st : StepSt) : StepSt :=
  files.foldl (fun st f => processFile env f st) st

/-- The outer loop of `createThumbnails`: every item of the repository. -/
def passItems (env : Env) (items : List Item) (st : StepSt) : StepSt :=
  items.foldl (fun st item => passFiles env item.files st) st

/-- `createThumbnails` from `service.go`: one full pass over the
repository starting from index `idx`. -/
def createThumbnails (env : Env) (items : List Item) (idx : Index) : StepSt :=
  passItems env items (idx, [], Outcome.normal)

/-- Is the event a resize invocation (for any identity)? -/
def isResize : Event → Bool
| Event.resizeCall _ => true
| _ => false

/-- Is the event a resize invocation for the identity `(r, k)`? -/
def isResizeFor (r k : String) : Event → Bool
| Event.resizeCall t => decide (t.route = r) && decide (thumbKey t = k)
| _ => false

/-- Does the event open an output target or invoke resize for `(r, k)`? -/
def touchesIdentity (r k : String) : Event → Bool
| Event.openTarget t => decide (t.route = r) && decide (thumbKey t = k)
| Event.resizeCall t => decide (t.route = r) && decide (thumbKey t = k)
| _ => false

/-- Is the event a `visit` or a `sleep` (the unconditional schedule)? -/
def isScheduleEvent : Event → Bool
| Event.visit _ _ _ => true
| Event.sleep _ => true
| _ => false

/-! ### The unconditional per-pass schedule (statement-side, from the spec) -/

/-- The spec-side schedule for one file: the three fixed dimension
attempts followed by the fixed 5-unit sleep. -/
def fileSchedule (f : File) : List Event :=
  [Event.visit f.id 200 0, Event.visit f.id 400 0, Event.visit f.id 800 0, Event.sleep 5]

/-- The spec-side schedule for a file list, in enumeration order. -/
def filesSchedule : List File → List Event
| [] => []
| f :: rest => fileSchedule f ++ filesSchedule rest

/-- The spec-side schedule for the whole repository, in enumeration
order. -/
def itemsSchedule : List Item → List Event
| [] => []
| it :: rest => filesSchedule it.files ++ itemsSchedule rest

/-! ### Service construction (`NewConversionService`) -/

/-- The conversion service record (the fields of the Go
`ConversionService` that carry state; collaborators live in `Env`). -/
structure ConversionService where
isRunning : Bool
indexFilePath : String
index : Index
thumbnailFolder : String
deriving Repr

/-- Modelled from the spec: `loadIndex` (the index store's load, in the
package's index persistence file, which is not under `src/`) is tolerant:
when it reports an error (missing, unreadable or corrupt index file) it
yields the empty index, and callers treat that as "start empty".  We
model its result abstractly as the pair `loadRes` of returned index and
optional error, constrained by this predicate. -/
def loadTolerant (loadRes : Index × Option String) : Prop :=
  loadRes.2.isSome = true → loadRes.1 = []

/-- `NewConversionService` from `service.go`: join the index file path
and target folder from the metadata folder, attempt the index load
(`loadRes` is what `loadIndex` returned; an error is only logged), create
the thumbnail directory (`createDirOk` is the result of
`fsutil.CreateDirectory`), and return `nil` (here `none`) exactly when
the directory could not be created. -/
def NewConversionService (metaDataFolder : String) (loadRes : Index × Option String)
    (createDirOk : Bool) : Option ConversionService :=
  if !createDirOk then none
  else some
    { isRunning := true
      indexFilePath := metaDataFolder ++ "/thumbnail.index"
      index := loadRes.1
      thumbnailFolder := metaDataFolder ++ "/thumbnails" }

/-! ### Notification worker (`startConversion`) -/

/-- Abstract state of `startConversion`'s refresh loop: the shared run
flag, whether the capacity-1 update channel currently buffers a signal,
and how many full passes have been run. -/
structure WorkerState where
isRunning : Bool
buffered : Bool
passes : Nat
deriving DecidableEq, Repr

/-- The three events acting on the worker state: a repository reindex
notification arriving, the worker draining the channel, and the shutdown
hook flipping the run flag. -/
inductive WorkerOp where
| notify : WorkerOp
| drain : WorkerOp
| stop : WorkerOp
deriving DecidableEq, Repr

/-- One transition of the refresh loop.  `notify` fills the capacity-1
buffer (a signal arriving while one is already pending coalesces with it;
the sender side lives in the `dataaccess` package, not under `src/`, and
is modelled from the spec as an at-least-once non-blocking send).
`drain` models one iteration of the `for conversion.isRunning` / `select`
loop: if the flag is up and a signal is buffered, the worker consumes it
and runs one full pass.  `stop` is the shutdown hook setting
`isRunning = false`. -/
def workerStep (s : WorkerState) : WorkerOp → WorkerState
| WorkerOp.notify => { s with buffered := true }
| WorkerOp.drain =>
    if s.isRunning && s.buffered then
      { isRunning := s.isRunning, buffered := false, passes := s.passes + 1 }
    else s
| WorkerOp.stop => { s with isRunning := false }

/-- The worker state right after `startConversion` has run its immediate
first pass and subscribed: run flag up, no pending signal, one pass
done. -/
def startConversionState : WorkerState :=
  { isRunning := true, buffered := false, passes := 1 }

/-! ### Concrete collaborators and repository data for the witnesses -/

/-- A collaborator environment in which everything succeeds. -/
def envOk : Env :=
  { mimeTypeIsSupported := fun _ => true
    getFileExtensionFromMimeType := fun _ => "jpg"
    combine := fun a b => Except.ok (a ++ "/" ++ b)
    openFile := fun _ => Except.ok ()
    resize := fun _ _ _ _ => Except.ok ()
    thumbnailFolder := "meta/thumbnails" }

/-- Like `envOk` but the resize capability always fails. -/
def envResizeFail : Env :=
  { envOk with resize := fun _ _ _ _ => Except.error "resize failed" }

/-- Like `envOk` but only the JPEG media type is supported. -/
def envJpegOnly : Env :=
  { envOk with mimeTypeIsSupported := fun m => m == "image/jpeg" }

/-- A JPEG repository file with stable id `abc123`. -/
def fileJpeg : File :=
  { id := "abc123", parent := "parent", route := "file.jpg"
    mimeType := Except.ok "image/jpeg" }

/-- A plain-text repository file (unsupported media type under
`envJpegOnly`). -/
def fileText : File :=
  { id := "notes", parent := "parent", route := "notes.txt"
    mimeType := Except.ok "text/plain" }

/-- A one-item, one-file repository. -/
def itemsOne : List Item := [{ files := [fileJpeg] }]

/-- The thumbnail record `envOk`/`fileJpeg` produce at bounds (200, 0). -/
def thumbA : Thumb :=
  { route := "parent/file.jpg", fileName := "abc123-200-0.jpg"
    maxWidth := 200, maxHeight := 0 }

/-- An index that already contains `thumbA` under its identity. -/
def idxA : Index := [("parent/file.jpg", [("200x0", thumbA)])]

/-! ### Association-list and index lemmas -/

theorem lookupAL_insertAL_self {β : Type} (l : List (String × β)) (k : String) (v : β) :
    lookupAL (insertAL l k v) k = some v := by
  induction l with
  | nil => simp [insertAL, lookupAL]
  | cons p rest ih =>
      by_cases h : p.1 = k
      · simp [insertAL, h, lookupAL]
      · simp [insertAL, h, lookupAL, ih]

theorem lookupAL_insertAL_ne {β : Type} (l : List (String × β)) (k k' : String) (v : β)
    (h : k' ≠ k) : lookupAL (insertAL l k v) k' = lookupAL l k' := by
  have h' : ¬k = k' := fun hk => h hk.symm
  induction l with
  | nil => simp [insertAL, lookupAL, h']
  | cons p rest ih =>
      by_cases hp : p.1 = k
      · simp [insertAL, hp, lookupAL, h']
      · simp [insertAL, hp, lookupAL, ih]

theorem findIdx_addToIndex_self (idx : Index) (t : Thumb) :
    findIdx (addToIndex idx t) t.route (thumbKey t) = some t := by
  unfold findIdx addToIndex
  rw [lookupAL_insertAL_self]
  simp [lookupAL_insertAL_self]

theorem findIdx_addToIndex_other (idx : Index) (t : Thumb) (r k : String)
    (h : ¬(r = t.route ∧ k = thumbKey t)) :
    findIdx (addToIndex idx t) r k = findIdx idx r k := by
  unfold findIdx addToIndex
  by_cases hr : r = t.route
  · subst hr
    have hk : k ≠ thumbKey t := fun hk => h ⟨rfl, hk⟩
    rw [lookupAL_insertAL_self]
    simp [lookupAL_insertAL_ne _ _ _ _ hk]
  · rw [lookupAL_insertAL_ne _ _ _ _ hr]

theorem isInIndex_eq (idx : Index) (t : Thumb) :
    isInIndex idx t = (findIdx idx t.route (thumbKey t)).isSome := by
  unfold isInIndex findIdx
  cases h : lookupAL idx t.route with
  | none => simp [lookupAL]
  | some thumbs => simp

/-- Index extension: every record present in `i` is present unchanged in
`j`.  The pass only grows the index, so this order is preserved. -/
def IndexLe (i j : Index) : Prop :=
  ∀ r k t, findIdx i r k = some t → findIdx j r k = some t

theorem IndexLe.refl (i : Index) : IndexLe i i := fun _ _ _ h => h

theorem IndexLe.trans {i j l : Index} (h1 : IndexLe i j) (h2 : IndexLe j l) :
    IndexLe i l := fun r k t h => h2 r k t (h1 r k t h)

theorem IndexLe_addToIndex (idx : Index) (t : Thumb) (h : isInIndex idx t = false) :
    IndexLe idx (addToIndex idx t) := by
  intro r k u hu
  by_cases hrk : r = t.route ∧ k = thumbKey t
  · exfalso
    rw [isInIndex_eq] at h
    rw [hrk.1, hrk.2] at hu
    rw [hu] at h
    simp at h
  · rw [findIdx_addToIndex_other idx t r k hrk]
    exact hu

theorem IndexLe.isSome {i j : Index} (h : IndexLe i j) (r k : String)
    (hs : (findIdx i r k).isSome = true) : (findIdx j r k).isSome = true := by
  cases ht : findIdx i r k with
  | none => rw [ht] at hs; simp at hs
  | some t => rw [h r k t ht]; rfl

theorem IndexLe.isInIndex {i j : Index} (h : IndexLe i j) (t : Thumb)
    (ht : Allmark.isInIndex i t = true) : Allmark.isInIndex j t = true := by
  rw [isInIndex_eq] at ht ⊢
  exact h.isSome _ _ ht

/-! ### Per-call case analysis -/

/-- Every `createThumbnail` call either returns with only its entry
`visit` logged and the index untouched, or reaches the resize: then its
thumbnail was not in the index, the output target was opened, the resize
was invoked, and the call either panics (resize error, index untouched)
or succeeds (record inserted). -/
theorem call_cases (env : Env) (f : File) (w h : Nat) (idx : Index) :
    createThumbnail env f w h idx = (idx, [Event.visit f.id w h], Outcome.normal)
    ∨ (∃ t, isInIndex idx t = false ∧
        createThumbnail env f w h idx =
          (idx, [Event.visit f.id w h, Event.openTarget t, Event.resizeCall t],
           Outcome.panicked))
    ∨ (∃ t, isInIndex idx t = false ∧
        createThumbnail env f w h idx =
          (addToIndex idx t, [Event.visit f.id w h, Event.openTarget t, Event.resizeCall t],
           Outcome.normal)) := by
  unfold createThumbnail
  cases hmt : f.mimeType with
  | error e => exact Or.inl rfl
  | ok m =>
      cases hs : env.mimeTypeIsSupported m with
      | false => exact Or.inl (by simp [hs])
      | true =>
          cases hc : env.combine f.parent f.route with
          | error e => exact Or.inl (by simp [hs])
          | ok fullRoute =>
              cases hin : isInIndex idx (thumbFor env f m fullRoute w h) with
              | true => exact Or.inl (by simp [hs, hin])
              | false =>
                  cases ho : env.openFile (env.thumbnailFolder ++ "/" ++
                      thumbFilename f.id w h (env.getFileExtensionFromMimeType m)) with
                  | error e => exact Or.inl (by simp [hs, hin, ho])
                  | ok u =>
                      cases hr : env.resize f m w h with
                      | error e =>
                          refine Or.inr (Or.inl ⟨thumbFor env f m fullRoute w h, hin, ?_⟩)
                          simp [hs, hin, ho, hr]
                      | ok u =>
                          refine Or.inr (Or.inr ⟨thumbFor env f m fullRoute w h, hin, ?_⟩)
                          simp [hs, hin, ho, hr]

theorem mono_createThumbnail (env : Env) (f : File) (w h : Nat) (idx : Index) :
    IndexLe idx (createThumbnail env f w h idx).1 := by
  rcases call_cases env f w h idx with h1 | ⟨t, ht, h2⟩ | ⟨t, ht, h3⟩
  · rw [h1]; exact IndexLe.refl idx
  · rw [h2]; exact IndexLe.refl idx
  · rw [h3]; exact IndexLe_addToIndex idx t ht

/-! ### Panic absorption and monotonicity through the pass -/

theorem thumbStep_panic (env : Env) (f : File) (w h : Nat) (idx : Index) (log : List Event) :
    thumbStep env f w h (idx, log, Outcome.panicked) = (idx, log, Outcome.panicked) := rfl

theorem processFile_panic (env : Env) (f : File) (idx : Index) (log : List Event) :
    processFile env f (idx, log, Outcome.panicked) = (idx, log, Outcome.panicked) := rfl

theorem passFiles_panic (env : Env) (files : List File) (idx : Index) (log : List Event) :
    passFiles env files (idx, log, Outcome.panicked) = (idx, log, Outcome.panicked) := by
  induction files with
  | nil => rfl
  | cons f rest ih => simp [passFiles, List.foldl_cons, processFile_panic] at ih ⊢; exact ih

theorem passItems_panic (env : Env) (items : List Item) (idx : Index) (log : List Event) :
    passItems env items (idx, log, Outcome.panicked) = (idx, log, Outcome.panicked) := by
  induction items with
  | nil => rfl
  | cons it rest ih =>
      simp only [passItems, List.foldl_cons] at ih ⊢
      rw [passFiles_panic]
      exact ih

theorem mono_thumbStep (env : Env) (f : File) (w h : Nat) (st : StepSt) :
    IndexLe st.1 (thumbStep env f w h st).1 := by
  rcases st with ⟨i, l, o⟩
  cases o
  · exact mono_createThumbnail env f w h i
  · exact IndexLe.refl i

theorem mono_processFile (env : Env) (f : File) (st : StepSt) :
    IndexLe st.1 (processFile env f st).1 := by
  have h3 : IndexLe st.1
      (thumbStep env f 800 0 (thumbStep env f 400 0 (thumbStep env f 200 0 st))).1 :=
    ((mono_thumbStep env f 200 0 st).trans
      (mono_thumbStep env f 400 0 _)).trans (mono_thumbStep env f 800 0 _)
  unfold processFile
  rcases hA : thumbStep env f 800 0 (thumbStep env f 400 0 (thumbStep env f 200 0 st)) with ⟨i, l, o⟩
  rw [hA] at h3
  cases o
  · exact h3
  · exact h3

theorem mono_passFiles (env : Env) (files : List File) (st : StepSt) :
    IndexLe st.1 (passFiles env files st).1 := by
  induction files generalizing st with
  | nil => exact IndexLe.refl st.1
  | cons f rest ih =>
      simp only [passFiles, List.foldl_cons]
      exact (mono_processFile env f st).trans (ih (processFile env f st))

theorem mono_passItems (env : Env) (items : List Item) (st : StepSt) :
    IndexLe st.1 (passItems env items st).1 := by
  induction items generalizing st with
  | nil => exact IndexLe.refl st.1
  | cons it rest ih =>
      simp only [passItems, List.foldl_cons]
      exact (mono_passFiles env it.files st).trans (ih (passFiles env it.files st))

/-! ### Event-classifier evaluation lemmas -/

theorem isResize_visit (a : String) (b c : Nat) : isResize (Event.visit a b c) = false := rfl

theorem isResize_openTarget (t : Thumb) : isResize (Event.openTarget t) = false := rfl

theorem isResize_resizeCall (t : Thumb) : isResize (Event.resizeCall t) = true := rfl

theorem isResize_sleep (n : Nat) : isResize (Event.sleep n) = false := rfl

/-! ### Stability: a normally-completed call stays skipped on any larger index -/

/-- If a `createThumbnail` call completed without panic and `J` extends the
index it produced, then re-running the call against `J` changes nothing
and performs no resize. -/
theorem stable_createThumbnail (env : Env) (f : File) (w h : Nat) {i i2 : Index}
    {L : List Event} (hc : createThumbnail env f w h i = (i2, L, Outcome.normal))
    (J : Index) (hJ : IndexLe i2 J) :
    (createThumbnail env f w h J).1 = J ∧
    (createThumbnail env f w h J).2.2 = Outcome.normal ∧
    (createThumbnail env f w h J).2.1.countP isResize = 0 := by
  cases hmt : f.mimeType with
  | error e =>
      refine ⟨?_, ?_, ?_⟩ <;>
        simp [createThumbnail, hmt, List.countP_cons, List.countP_nil, isResize_visit]
  | ok m =>
      cases hs : env.mimeTypeIsSupported m with
      | false =>
          refine ⟨?_, ?_, ?_⟩ <;>
            simp [createThumbnail, hmt, hs, List.countP_cons, List.countP_nil, isResize_visit]
      | true =>
          cases hcmb : env.combine f.parent f.route with
          | error e =>
              refine ⟨?_, ?_, ?_⟩ <;>
                simp [createThumbnail, hmt, hs, hcmb,
                  List.countP_cons, List.countP_nil, isResize_visit]
          | ok fullRoute =>
              cases hin : isInIndex i (thumbFor env f m fullRoute w h) with
              | true =>
                  simp only [createThumbnail, hmt, hs, hcmb, hin, Bool.not_true,
                    Bool.false_eq_true, if_false, if_true] at hc
                  have hi2 : i2 = i := by
                    have := congrArg Prod.fst hc
                    simpa using this.symm
                  have hJT : isInIndex J (thumbFor env f m fullRoute w h) = true :=
                    IndexLe.isInIndex (hi2 ▸ hJ) _ hin
                  refine ⟨?_, ?_, ?_⟩ <;>
                    simp [createThumbnail, hmt, hs, hcmb, hJT,
                      List.countP_cons, List.countP_nil, isResize_visit]
              | false =>
                  cases ho : env.openFile (env.thumbnailFolder ++ "/" ++
                      thumbFilename f.id w h (env.getFileExtensionFromMimeType m)) with
                  | error e =>
                      simp only [createThumbnail, hmt, hs, hcmb, hin, ho, Bool.not_true,
                        Bool.false_eq_true, if_false, if_true] at hc
                      have hi2 : i2 = i := by
                        have := congrArg Prod.fst hc
                        simpa using this.symm
                      cases hJin : isInIndex J (thumbFor env f m fullRoute w h) with
                      | true =>
                          refine ⟨?_, ?_, ?_⟩ <;>
                            simp [createThumbnail, hmt, hs, hcmb, hJin,
                              List.countP_cons, List.countP_nil, isResize_visit]
                      | false =>
                          refine ⟨?_, ?_, ?_⟩ <;>
                            simp [createThumbnail, hmt, hs, hcmb, hJin, ho,
                              List.countP_cons, List.countP_nil, isResize_visit]
                  | ok u =>
                      cases hr : env.resize f m w h with
                      | error e =>
                          simp only [createThumbnail, hmt, hs, hcmb, hin, ho, hr, Bool.not_true,
                            Bool.false_eq_true, if_false, if_true] at hc
                          have := congrArg (fun p => p.2.2) hc
                          simp at this
                      | ok u' =>
                          simp only [createThumbnail, hmt, hs, hcmb, hin, ho, hr, Bool.not_true,
                            Bool.false_eq_true, if_false, if_true] at hc
                          have hi2 : i2 = addToIndex i (thumbFor env f m fullRoute w h) := by
                            have := congrArg Prod.fst hc
                            simpa using this.symm
                          have hsome :
                              (findIdx (addToIndex i (thumbFor env f m fullRoute w h))
                                (thumbFor env f m fullRoute w h).route
                                (thumbKey (thumbFor env f m fullRoute w h))).isSome = true := by
                            rw [findIdx_addToIndex_self]; rfl
                          have hJT : isInIndex J (thumbFor env f m fullRoute w h) = true := by
                            rw [isInIndex_eq]
                            exact IndexLe.isSome (hi2 ▸ hJ) _ _ hsome
                          refine ⟨?_, ?_, ?_⟩ <;>
                            simp [createThumbnail, hmt, hs, hcmb, hJT,
                              List.countP_cons, List.countP_nil, isResize_visit]

theorem stable_thumbStep (env : Env) (f : File) (w h : Nat) {i i2 : Index}
    {L L2 : List Event}
    (hc : thumbStep env f w h (i, L, Outcome.normal) = (i2, L2, Outcome.normal))
    (J : Index) (M : List Event) (hJ : IndexLe i2 J) :
    (thumbStep env f w h (J, M, Outcome.normal)).1 = J ∧
    (thumbStep env f w h (J, M, Outcome.normal)).2.2 = Outcome.normal ∧
    (thumbStep env f w h (J, M, Outcome.normal)).2.1.countP isResize = M.countP isResize := by
  simp only [thumbStep] at hc
  have h1 : (createThumbnail env f w h i).1 = i2 := congrArg Prod.fst hc
  have h3 : (createThumbnail env f w h i).2.2 = Outcome.normal := congrArg (fun p => p.2.2) hc
  have hfull : createThumbnail env f w h i =
      (i2, (createThumbnail env f w h i).2.1, Outcome.normal) := by
    rw [← h1, ← h3]
  obtain ⟨hA, hB, hC⟩ := stable_createThumbnail env f w h hfull J hJ
  refine ⟨?_, ?_, ?_⟩ <;> simp [thumbStep, hA, hB, hC, List.countP_append]

theorem stable_processFile (env : Env) (f : File) {i i2 : Index} {L L2 : List Event}
    (hc : processFile env f (i, L, Outcome.normal) = (i2, L2, Outcome.normal))
    (J : Index) (M : List Event) (hJ : IndexLe i2 J) :
    (processFile env f (J, M, Outcome.normal)).1 = J ∧
    (processFile env f (J, M, Outcome.normal)).2.2 = Outcome.normal ∧
    (processFile env f (J, M, Outcome.normal)).2.1.countP isResize = M.countP isResize := by
  rcases h1 : thumbStep env f 200 0 (i, L, Outcome.normal) with ⟨ia, La, oa⟩
  cases oa with
  | panicked =>
      exfalso
      have hbad : processFile env f (i, L, Outcome.normal) = (ia, La, Outcome.panicked) := by
        simp [processFile, h1, thumbStep_panic]
      rw [hbad] at hc
      simpa using congrArg (fun p => p.2.2) hc
  | normal =>
  rcases h2 : thumbStep env f 400 0 (ia, La, Outcome.normal) with ⟨ib, Lb, ob⟩
  cases ob with
  | panicked =>
      exfalso
      have hbad : processFile env f (i, L, Outcome.normal) = (ib, Lb, Outcome.panicked) := by
        simp [processFile, h1, h2, thumbStep_panic]
      rw [hbad] at hc
      simpa using congrArg (fun p => p.2.2) hc
  | normal =>
  rcases h3 : thumbStep env f 800 0 (ib, Lb, Outcome.normal) with ⟨ic, Lc, oc⟩
  cases oc with
  | panicked =>
      exfalso
      have hbad : processFile env f (i, L, Outcome.normal) = (ic, Lc, Outcome.panicked) := by
        simp [processFile, h1, h2, h3]
      rw [hbad] at hc
      simpa using congrArg (fun p => p.2.2) hc
  | normal =>
  have hpf : processFile env f (i, L, Outcome.normal) =
      (ic, Lc ++ [Event.sleep 5], Outcome.normal) := by
    simp [processFile, h1, h2, h3]
  rw [hpf] at hc
  have hi2 : i2 = ic := by simpa using (congrArg Prod.fst hc).symm
  have mab : IndexLe ia ib := by
    have hm := mono_thumbStep env f 400 0 (ia, La, Outcome.normal)
    rw [h2] at hm; exact hm
  have mbc : IndexLe ib ic := by
    have hm := mono_thumbStep env f 800 0 (ib, Lb, Outcome.normal)
    rw [h3] at hm; exact hm
  have hJc : IndexLe ic J := hi2 ▸ hJ
  have hJb : IndexLe ib J := mbc.trans hJc
  have hJa : IndexLe ia J := mab.trans hJb
  obtain ⟨A1, B1, C1⟩ := stable_thumbStep env f 200 0 h1 J M hJa
  rcases r1 : thumbStep env f 200 0 (J, M, Outcome.normal) with ⟨J1, M1, o1⟩
  rw [r1] at A1 B1 C1
  simp only at A1 B1 C1
  rw [A1, B1] at r1
  obtain ⟨A2, B2, C2⟩ := stable_thumbStep env f 400 0 h2 J M1 hJb
  rcases r2 : thumbStep env f 400 0 (J, M1, Outcome.normal) with ⟨J2, M2, o2⟩
  rw [r2] at A2 B2 C2
  simp only at A2 B2 C2
  rw [A2, B2] at r2
  obtain ⟨A3, B3, C3⟩ := stable_thumbStep env f 800 0 h3 J M2 hJc
  rcases r3 : thumbStep env f 800 0 (J, M2, Outcome.normal) with ⟨J3, M3, o3⟩
  rw [r3] at A3 B3 C3
  simp only at A3 B3 C3
  rw [A3, B3] at r3
  have hout : processFile env f (J, M, Outcome.normal) =
      (J, M3 ++ [Event.sleep 5], Outcome.normal) := by
    simp [processFile, r1, r2, r3]
  refine ⟨?_, ?_, ?_⟩ <;>
    simp [hout, List.countP_append, List.countP_cons, List.countP_nil, isResize_sleep, C1, C2, C3]

theorem passFiles_nil (env : Env) (st : StepSt) : passFiles env [] st = st := rfl

theorem passFiles_cons (env : Env) (f : File) (rest : List File) (st : StepSt) :
    passFiles env (f :: rest) st = passFiles env rest (processFile env f st) := rfl

theorem passItems_nil (env : Env) (st : StepSt) : passItems env [] st = st := rfl

theorem passItems_cons (env : Env) (it : Item) (rest : List Item) (st : StepSt) :
    passItems env (it :: rest) st = passItems env rest (passFiles env it.files st) := rfl

theorem stable_passFiles (env : Env) (files : List File) {i i2 : Index} {L L2 : List Event}
    (hc : passFiles env files (i, L, Outcome.normal) = (i2, L2, Outcome.normal))
    (J : Index) (M : List Event) (hJ : IndexLe i2 J) :
    (passFiles env files (J, M, Outcome.normal)).1 = J ∧
    (passFiles env files (J, M, Outcome.normal)).2.2 = Outcome.normal ∧
    (passFiles env files (J, M, Outcome.normal)).2.1.countP isResize = M.countP isResize := by
  induction files generalizing i L M with
  | nil => exact ⟨rfl, rfl, rfl⟩
  | cons f rest ih =>
      rw [passFiles_cons] at hc ⊢
      rcases h1 : processFile env f (i, L, Outcome.normal) with ⟨ia, La, oa⟩
      rw [h1] at hc
      cases oa with
      | panicked =>
          exfalso
          rw [passFiles_panic] at hc
          simpa using congrArg (fun p => p.2.2) hc
      | normal =>
          have hiaJ : IndexLe ia J := by
            have hm := mono_passFiles env rest (ia, La, Outcome.normal)
            rw [hc] at hm
            exact hm.trans hJ
          obtain ⟨A1, B1, C1⟩ := stable_processFile env f h1 J M hiaJ
          rcases r1 : processFile env f (J, M, Outcome.normal) with ⟨J1, M1, o1⟩
          rw [r1] at A1 B1 C1
          simp only at A1 B1 C1
          rw [A1, B1]
          obtain ⟨A2, B2, C2⟩ := ih hc M1
          exact ⟨A2, B2, by rw [C2, C1]⟩

theorem stable_passItems (env : Env) (items : List Item) {i i2 : Index} {L L2 : List Event}
    (hc : passItems env items (i, L, Outcome.normal) = (i2, L2, Outcome.normal))
    (J : Index) (M : List Event) (hJ : IndexLe i2 J) :
    (passItems env items (J, M, Outcome.normal)).1 = J ∧
    (passItems env items (J, M, Outcome.normal)).2.2 = Outcome.normal ∧
    (passItems env items (J, M, Outcome.normal)).2.1.countP isResize = M.countP isResize := by
  induction items generalizing i L M with
  | nil => exact ⟨rfl, rfl, rfl⟩
  | cons it rest ih =>
      rw [passItems_cons] at hc ⊢
      rcases h1 : passFiles env it.files (i, L, Outcome.normal) with ⟨ia, La, oa⟩
      rw [h1] at hc
      cases oa with
      | panicked =>
          exfalso
          rw [passItems_panic] at hc
          simpa using congrArg (fun p => p.2.2) hc
      | normal =>
          have hiaJ : IndexLe ia J := by
            have hm := mono_passItems env rest (ia, La, Outcome.normal)
            rw [hc] at hm
            exact hm.trans hJ
          obtain ⟨A1, B1, C1⟩ := stable_passFiles env it.files h1 J M hiaJ
          rcases r1 : passFiles env it.files (J, M, Outcome.normal) with ⟨J1, M1, o1⟩
          rw [r1] at A1 B1 C1
          simp only at A1 B1 C1
          rw [A1, B1]
          obtain ⟨A2, B2, C2⟩ := ih hc M1
          exact ⟨A2, B2, by rw [C2, C1]⟩

/-- C1: running `createThumbnails` twice in succession over an unchanged
repository (same `Env`, same items): when the first pass completes (no
panic), the second pass performs zero resize invocations, ends normally,
and leaves the index exactly as the first pass left it. -/
theorem createThumbnails_idempotent (env : Env) (items : List Item) (idx : Index)
    (h : (createThumbnails env items idx).2.2 = Outcome.normal) :
    (createThumbnails env items (createThumbnails env items idx).1).1 =
      (createThumbnails env items idx).1 ∧
    (createThumbnails env items (createThumbnails env items idx).1).2.2 = Outcome.normal ∧
    (createThumbnails env items
      (createThumbnails env items idx).1).2.1.countP isResize = 0 := by
  rcases hr : createThumbnails env items idx with ⟨i1, L1, o⟩
  rw [hr] at h
  simp only at h
  rw [h] at hr
  unfold createThumbnails at hr ⊢
  obtain ⟨A, B, C⟩ := stable_passItems env items hr i1 [] (IndexLe.refl i1)
  exact ⟨A, B, by simpa using C⟩

/-- Witness for C1: one item holding one JPEG file, all collaborators
succeeding, starting from the empty index. -/
theorem createThumbnails_idempotent_witness :
    (createThumbnails envOk itemsOne (createThumbnails envOk itemsOne []).1).1 =
      (createThumbnails envOk itemsOne []).1 ∧
    (createThumbnails envOk itemsOne (createThumbnails envOk itemsOne []).1).2.2 =
      Outcome.normal ∧
    (createThumbnails envOk itemsOne
      (createThumbnails envOk itemsOne []).1).2.1.countP isResize = 0 :=
  createThumbnails_idempotent envOk itemsOne [] (by rfl)

/-! ### C2: cache-hit skip -/

theorem touches_visit (r k a : String) (b c : Nat) :
    touchesIdentity r k (Event.visit a b c) = false := rfl

theorem touches_sleep (r k : String) (n : Nat) :
    touchesIdentity r k (Event.sleep n) = false := rfl

theorem touches_openTarget (r k : String) (t : Thumb) :
    touchesIdentity r k (Event.openTarget t) =
      (decide (t.route = r) && decide (thumbKey t = k)) := rfl

theorem touches_resizeCall (r k : String) (t : Thumb) :
    touchesIdentity r k (Event.resizeCall t) =
      (decide (t.route = r) && decide (thumbKey t = k)) := rfl

theorem thumb_not_matching {idx : Index} {t : Thumb} {r k : String}
    (ht : isInIndex idx t = false) (hp : (findIdx idx r k).isSome = true) :
    (decide (t.route = r) && decide (thumbKey t = k)) = false := by
  by_cases hr : t.route = r
  · by_cases hk : thumbKey t = k
    · exfalso
      rw [isInIndex_eq, hr, hk, hp] at ht
      exact absurd ht (by simp)
    · simp [hk]
  · simp [hr]

theorem call_noTouch (env : Env) (f : File) (w h : Nat) (idx : Index) (r k : String)
    (hp : (findIdx idx r k).isSome = true) :
    (createThumbnail env f w h idx).2.1.countP (touchesIdentity r k) = 0 := by
  rcases call_cases env f w h idx with h1 | ⟨t, ht, h2⟩ | ⟨t, ht, h3⟩
  · rw [h1]
    simp [List.countP_cons, List.countP_nil, touches_visit]
  · rw [h2]
    have hnm := thumb_not_matching ht hp
    simp [List.countP_cons, List.countP_nil, touches_visit, touches_openTarget,
      touches_resizeCall, hnm]
  · rw [h3]
    have hnm := thumb_not_matching ht hp
    simp [List.countP_cons, List.countP_nil, touches_visit, touches_openTarget,
      touches_resizeCall, hnm]

theorem noTouch_thumbStep (env : Env) (f : File) (w h : Nat) (st : StepSt) (r k : String)
    (hp : (findIdx st.1 r k).isSome = true) :
    (findIdx (thumbStep env f w h st).1 r k).isSome = true ∧
    (thumbStep env f w h st).2.1.countP (touchesIdentity r k) =
      st.2.1.countP (touchesIdentity r k) := by
  rcases st with ⟨i, l, o⟩
  cases o with
  | panicked => exact ⟨hp, rfl⟩
  | normal =>
      refine ⟨?_, ?_⟩
      · exact (mono_createThumbnail env f w h i).isSome r k hp
      · simp [thumbStep, List.countP_append, call_noTouch env f w h i r k hp]

theorem noTouch_processFile (env : Env) (f : File) (st : StepSt) (r k : String)
    (hp : (findIdx st.1 r k).isSome = true) :
    (findIdx (processFile env f st).1 r k).isSome = true ∧
    (processFile env f st).2.1.countP (touchesIdentity r k) =
      st.2.1.countP (touchesIdentity r k) := by
  obtain ⟨p1, q1⟩ := noTouch_thumbStep env f 200 0 st r k hp
  obtain ⟨p2, q2⟩ := noTouch_thumbStep env f 400 0 (thumbStep env f 200 0 st) r k p1
  obtain ⟨p3, q3⟩ :=
    noTouch_thumbStep env f 800 0 (thumbStep env f 400 0 (thumbStep env f 200 0 st)) r k p2
  unfold processFile
  rcases hA : thumbStep env f 800 0 (thumbStep env f 400 0 (thumbStep env f 200 0 st))
    with ⟨ic, Lc, oc⟩
  rw [hA] at p3 q3
  simp only at p3 q3
  cases oc with
  | normal =>
      refine ⟨p3, ?_⟩
      simp only [List.countP_append]
      simp [List.countP_cons, List.countP_nil, touches_sleep, q3, q2, q1]
  | panicked => exact ⟨p3, by rw [q3, q2, q1]⟩

theorem noTouch_passFiles (env : Env) (files : List File) (st : StepSt) (r k : String)
    (hp : (findIdx st.1 r k).isSome = true) :
    (findIdx (passFiles env files st).1 r k).isSome = true ∧
    (passFiles env files st).2.1.countP (touchesIdentity r k) =
      st.2.1.countP (touchesIdentity r k) := by
  induction files generalizing st with
  | nil => exact ⟨hp, rfl⟩
  | cons f rest ih =>
      rw [passFiles_cons]
      obtain ⟨p1, q1⟩ := noTouch_processFile env f st r k hp
      obtain ⟨p2, q2⟩ := ih (processFile env f st) p1
      exact ⟨p2, by rw [q2, q1]⟩

theorem noTouch_passItems (env : Env) (items : List Item) (st : StepSt) (r k : String)
    (hp : (findIdx st.1 r k).isSome = true) :
    (findIdx (passItems env items st).1 r k).isSome = true ∧
    (passItems env items st).2.1.countP (touchesIdentity r k) =
      st.2.1.countP (touchesIdentity r k) := by
  induction items generalizing st with
  | nil => exact ⟨hp, rfl⟩
  | cons it rest ih =>
      rw [passItems_cons]
      obtain ⟨p1, q1⟩ := noTouch_passFiles env it.files st r k hp
      obtain ⟨p2, q2⟩ := ih (passFiles env it.files st) p1
      exact ⟨p2, by rw [q2, q1]⟩

/-- C2: for any identity `(r, k)` (combined file route and rendered
dimension key) already present in the index, a full pass neither opens an
output target nor invokes the resize capability for that identity. -/
theorem cacheHit_skip (env : Env) (items : List Item) (idx : Index) (r k : String)
    (hp : (findIdx idx r k).isSome = true) :
    (createThumbnails env items idx).2.1.countP (touchesIdentity r k) = 0 := by
  obtain ⟨p, q⟩ := noTouch_passItems env items (idx, [], Outcome.normal) r k hp
  unfold createThumbnails
  simpa using q

/-- Witness for C2: the index already holds the (200, 0) thumbnail of the
JPEG file, so the pass touches that identity zero times. -/
theorem cacheHit_skip_witness :
    (createThumbnails envOk itemsOne idxA).2.1.countP
      (touchesIdentity "parent/file.jpg" "200x0") = 0 :=
  cacheHit_skip envOk itemsOne idxA "parent/file.jpg" "200x0" (by rfl)

/-! ### C3: failed builds, successful builds, and at-most-once per pass -/

theorem isResizeFor_visit (r k a : String) (b c : Nat) :
    isResizeFor r k (Event.visit a b c) = false := rfl

theorem isResizeFor_openTarget (r k : String) (t : Thumb) :
    isResizeFor r k (Event.openTarget t) = false := rfl

theorem isResizeFor_resizeCall (r k : String) (t : Thumb) :
    isResizeFor r k (Event.resizeCall t) =
      (decide (t.route = r) && decide (thumbKey t = k)) := rfl

theorem isResizeFor_sleep (r k : String) (n : Nat) :
    isResizeFor r k (Event.sleep n) = false := rfl

theorem call_noResizeFor (env : Env) (f : File) (w h : Nat) (idx : Index) (r k : String)
    (hp : (findIdx idx r k).isSome = true) :
    (createThumbnail env f w h idx).2.1.countP (isResizeFor r k) = 0 := by
  rcases call_cases env f w h idx with h1 | ⟨t, ht, h2⟩ | ⟨t, ht, h3⟩
  · rw [h1]
    simp [List.countP_cons, List.countP_nil, isResizeFor_visit]
  · rw [h2]
    have hnm := thumb_not_matching ht hp
    simp [List.countP_cons, List.countP_nil, isResizeFor_visit, isResizeFor_openTarget,
      isResizeFor_resizeCall, hnm]
  · rw [h3]
    have hnm := thumb_not_matching ht hp
    simp [List.countP_cons, List.countP_nil, isResizeFor_visit, isResizeFor_openTarget,
      isResizeFor_resizeCall, hnm]

/-- One call invokes resize for a given identity zero times, or exactly
once: and then the identity ends up indexed or the call panicked. -/
theorem call_resizeFor_cases (env : Env) (f : File) (w h : Nat) (idx : Index) (r k : String) :
    (createThumbnail env f w h idx).2.1.countP (isResizeFor r k) = 0
    ∨ ((createThumbnail env f w h idx).2.1.countP (isResizeFor r k) = 1 ∧
       ((findIdx (createThumbnail env f w h idx).1 r k).isSome = true ∨
        (createThumbnail env f w h idx).2.2 = Outcome.panicked)) := by
  rcases call_cases env f w h idx with h1 | ⟨t, ht, h2⟩ | ⟨t, ht, h3⟩
  · left
    rw [h1]
    simp [List.countP_cons, List.countP_nil, isResizeFor_visit]
  · rw [h2]
    cases hmatch : (decide (t.route = r) && decide (thumbKey t = k)) with
    | false =>
        left
        simp [List.countP_cons, List.countP_nil, isResizeFor_visit, isResizeFor_openTarget,
          isResizeFor_resizeCall, hmatch]
    | true =>
        right
        refine ⟨?_, Or.inr rfl⟩
        simp [List.countP_cons, List.countP_nil, isResizeFor_visit, isResizeFor_openTarget,
          isResizeFor_resizeCall, hmatch]
  · rw [h3]
    cases hmatch : (decide (t.route = r) && decide (thumbKey t = k)) with
    | false =>
        left
        simp [List.countP_cons, List.countP_nil, isResizeFor_visit, isResizeFor_openTarget,
          isResizeFor_resizeCall, hmatch]
    | true =>
        right
        constructor
        · simp [List.countP_cons, List.countP_nil, isResizeFor_visit, isResizeFor_openTarget,
            isResizeFor_resizeCall, hmatch]
        · left
          have hb := hmatch
          simp only [Bool.and_eq_true, decide_eq_true_eq] at hb
          obtain ⟨hr, hk⟩ := hb
          rw [← hr, ← hk]
          simp [findIdx_addToIndex_self]

theorem once_thumbStep (env : Env) (f : File) (w h : Nat) (st : StepSt) (r k : String)
    (h1 : st.2.1.countP (isResizeFor r k) ≤ 1)
    (h2 : st.2.1.countP (isResizeFor r k) = 1 →
          (findIdx st.1 r k).isSome = true ∨ st.2.2 = Outcome.panicked) :
    (thumbStep env f w h st).2.1.countP (isResizeFor r k) ≤ 1 ∧
    ((thumbStep env f w h st).2.1.countP (isResizeFor r k) = 1 →
      (findIdx (thumbStep env f w h st).1 r k).isSome = true ∨
      (thumbStep env f w h st).2.2 = Outcome.panicked) := by
  rcases st with ⟨i, l, o⟩
  cases o with
  | panicked => exact ⟨h1, fun _ => Or.inr rfl⟩
  | normal =>
      simp only at h1 h2
      cases hl : l.countP (isResizeFor r k) with
      | zero =>
          rcases call_resizeFor_cases env f w h i r k with hz | ⟨ho, hd⟩
          · refine ⟨?_, ?_⟩
            · simp [thumbStep, List.countP_append, hl, hz]
            · intro hc
              simp [thumbStep, List.countP_append, hl, hz] at hc
          · refine ⟨?_, ?_⟩
            · simp [thumbStep, List.countP_append, hl, ho]
            · intro _
              simpa [thumbStep] using hd
      | succ n =>
          have hcount1 : l.countP (isResizeFor r k) = 1 := by
            rw [hl] at h1 ⊢
            omega
          have hpres : (findIdx i r k).isSome = true := by
            rcases h2 hcount1 with hp | hpan
            · exact hp
            · exact absurd hpan (by simp)
          have hz := call_noResizeFor env f w h i r k hpres
          refine ⟨?_, ?_⟩
          · simp [thumbStep, List.countP_append, hcount1, hz]
          · intro _
            left
            have := (mono_createThumbnail env f w h i).isSome r k hpres
            simpa [thumbStep] using this

theorem once_processFile (env : Env) (f : File) (st : StepSt) (r k : String)
    (h1 : st.2.1.countP (isResizeFor r k) ≤ 1)
    (h2 : st.2.1.countP (isResizeFor r k) = 1 →
          (findIdx st.1 r k).isSome = true ∨ st.2.2 = Outcome.panicked) :
    (processFile env f st).2.1.countP (isResizeFor r k) ≤ 1 ∧
    ((processFile env f st).2.1.countP (isResizeFor r k) = 1 →
      (findIdx (processFile env f st).1 r k).isSome = true ∨
      (processFile env f st).2.2 = Outcome.panicked) := by
  obtain ⟨a1, b1⟩ := once_thumbStep env f 200 0 st r k h1 h2
  obtain ⟨a2, b2⟩ := once_thumbStep env f 400 0 (thumbStep env f 200 0 st) r k a1 b1
  obtain ⟨a3, b3⟩ :=
    once_thumbStep env f 800 0 (thumbStep env f 400 0 (thumbStep env f 200 0 st)) r k a2 b2
  unfold processFile
  rcases hA : thumbStep env f 800 0 (thumbStep env f 400 0 (thumbStep env f 200 0 st))
    with ⟨ic, Lc, oc⟩
  rw [hA] at a3 b3
  simp only at a3 b3
  cases oc with
  | panicked => exact ⟨a3, fun _ => Or.inr rfl⟩
  | normal =>
      refine ⟨?_, ?_⟩
      · simpa [List.countP_append, List.countP_cons, List.countP_nil, isResizeFor_sleep]
          using a3
      · intro hc
        have hc' : Lc.countP (isResizeFor r k) = 1 := by
          simpa [List.countP_append, List.countP_cons, List.countP_nil, isResizeFor_sleep]
            using hc
        rcases b3 hc' with hp | hpan
        · exact Or.inl hp
        · exact absurd hpan (by simp)

theorem once_passFiles (env : Env) (files : List File) (st : StepSt) (r k : String)
    (h1 : st.2.1.countP (isResizeFor r k) ≤ 1)
    (h2 : st.2.1.countP (isResizeFor r k) = 1 →
          (findIdx st.1 r k).isSome = true ∨ st.2.2 = Outcome.panicked) :
    (passFiles env files st).2.1.countP (isResizeFor r k) ≤ 1 ∧
    ((passFiles env files st).2.1.countP (isResizeFor r k) = 1 →
      (findIdx (passFiles env files st).1 r k).isSome = true ∨
      (passFiles env files st).2.2 = Outcome.panicked) := by
  induction files generalizing st with
  | nil => exact ⟨h1, h2⟩
  | cons f rest ih =>
      rw [passFiles_cons]
      obtain ⟨a1, b1⟩ := once_processFile env f st r k h1 h2
      exact ih (processFile env f st) a1 b1

theorem once_passItems (env : Env) (items : List Item) (st : StepSt) (r k : String)
    (h1 : st.2.1.countP (isResizeFor r k) ≤ 1)
    (h2 : st.2.1.countP (isResizeFor r k) = 1 →
          (findIdx st.1 r k).isSome = true ∨ st.2.2 = Outcome.panicked) :
    (passItems env items st).2.1.countP (isResizeFor r k) ≤ 1 := by
  induction items generalizing st with
  | nil => exact h1
  | cons it rest ih =>
      rw [passItems_cons]
      obtain ⟨a1, b1⟩ := once_passFiles env it.files st r k h1 h2
      exact ih (passFiles env it.files st) a1 b1

theorem notInIndex_findIdx {idx : Index} {t : Thumb} (h : isInIndex idx t = false) :
    findIdx idx t.route (thumbKey t) = none := by
  rw [isInIndex_eq] at h
  cases hf : findIdx idx t.route (thumbKey t) with
  | none => rfl
  | some u => rw [hf] at h; simp at h

/-- C3: for an eligible file/dimension whose identity is not yet indexed
(media type detected and supported, route combined, output opened):
if the resize invocation fails, the index is left exactly as it was — in
particular no entry appears for the identity — and resize was invoked
exactly once for it; if the resize succeeds, the index gains exactly the
one new record for the identity (which was absent before) and every
other identity is untouched; and in any full pass, any identity's resize
is invoked at most once, so a failed build is never retried within the
pass (it is retried on a later pass because the entry is still absent). -/
theorem resizeFailure_retry_contract (env : Env) (f : File) (w h : Nat) (idx : Index)
    (m fullRoute : String)
    (hm : f.mimeType = Except.ok m)
    (hsup : env.mimeTypeIsSupported m = true)
    (hcomb : env.combine f.parent f.route = Except.ok fullRoute)
    (hnin : isInIndex idx (thumbFor env f m fullRoute w h) = false)
    (hopen : env.openFile (env.thumbnailFolder ++ "/" ++
        thumbFilename f.id w h (env.getFileExtensionFromMimeType m)) = Except.ok ()) :
    (∀ e, env.resize f m w h = Except.error e →
        (createThumbnail env f w h idx).1 = idx ∧
        findIdx (createThumbnail env f w h idx).1 fullRoute (dimKey w h) = none ∧
        (createThumbnail env f w h idx).2.1.countP
          (isResizeFor fullRoute (dimKey w h)) = 1) ∧
    (env.resize f m w h = Except.ok () →
        (createThumbnail env f w h idx).1 =
          addToIndex idx (thumbFor env f m fullRoute w h) ∧
        findIdx (createThumbnail env f w h idx).1 fullRoute (dimKey w h) =
          some (thumbFor env f m fullRoute w h) ∧
        findIdx idx fullRoute (dimKey w h) = none ∧
        (∀ r' k', ¬(r' = fullRoute ∧ k' = dimKey w h) →
            findIdx (createThumbnail env f w h idx).1 r' k' = findIdx idx r' k')) ∧
    (∀ (items : List Item) (j : Index) (r' k' : String),
        (createThumbnails env items j).2.1.countP (isResizeFor r' k') ≤ 1) := by
  have hnone : findIdx idx fullRoute (dimKey w h) = none := notInIndex_findIdx hnin
  refine ⟨?_, ?_, ?_⟩
  · intro e hre
    refine ⟨?_, ?_, ?_⟩
    · simp [createThumbnail, hm, hsup, hcomb, hnin, hopen, hre]
    · simp only [createThumbnail, hm, hsup, hcomb, hnin, hopen, hre]
      simpa using hnone
    · simp only [createThumbnail, hm, hsup, hcomb, hnin, hopen, hre]
      simp [List.countP_cons, List.countP_nil, isResizeFor_visit, isResizeFor_openTarget,
        isResizeFor_resizeCall, thumbFor, newThumb, thumbKey, dimKey]
  · intro hre
    refine ⟨?_, ?_, hnone, ?_⟩
    · simp [createThumbnail, hm, hsup, hcomb, hnin, hopen, hre]
    · simp only [createThumbnail, hm, hsup, hcomb, hnin, hopen, hre]
      simpa using findIdx_addToIndex_self idx (thumbFor env f m fullRoute w h)
    · intro r' k' hne
      simp only [createThumbnail, hm, hsup, hcomb, hnin, hopen, hre]
      simpa using findIdx_addToIndex_other idx (thumbFor env f m fullRoute w h) r' k' hne
  · intro items j r' k'
    unfold createThumbnails
    exact once_passItems env items (j, [], Outcome.normal) r' k'
      (by simp) (by intro hx; simp at hx)

/-- Witness for C3: the resize capability fails on the JPEG file starting
from the empty index: no index entry is written and resize was attempted
exactly once. -/
theorem resizeFailure_retry_contract_witness :
    (createThumbnail envResizeFail fileJpeg 200 0 []).1 = ([] : Index) ∧
    (createThumbnail envResizeFail fileJpeg 200 0 []).2.1.countP
      (isResizeFor "parent/file.jpg" (dimKey 200 0)) = 1 := by
  obtain ⟨hA, hB, hC⟩ := resizeFailure_retry_contract envResizeFail fileJpeg 200 0 []
    "image/jpeg" "parent/file.jpg" rfl rfl rfl rfl rfl
  obtain ⟨x, y, z⟩ := hA "resize failed" rfl
  exact ⟨x, z⟩

/-! ### C4: a resize failure panics instead of being isolated -/

/-- C4 (code bug): at a concrete eligible input whose resize fails, the
call does not return normally.  The source's failure branch logs
`err.Error()` where `err` is the nil error of the successful `OpenFile`
call — a nil-pointer dereference — so `createThumbnail` panics and the
enclosing pass is aborted, contradicting the spec's
isolate-log-and-continue policy. -/
theorem resizeFailure_panics :
    createThumbnail envResizeFail fileJpeg 200 0 [] =
      ([], [Event.visit "abc123" 200 0,
            Event.openTarget thumbA,
            Event.resizeCall thumbA],
       Outcome.panicked) ∧
    (createThumbnails envResizeFail itemsOne []).2.2 = Outcome.panicked :=
  ⟨rfl, rfl⟩

/-! ### C5: undetectable or unsupported media types are skipped entirely -/

/-- C5: when media-type detection fails, or the detected type is not
supported, `createThumbnail` returns normally having only logged its
entry: for every dimension pair, the index is unchanged, no output target
is opened and no resize is invoked. -/
theorem unsupportedType_skip (env : Env) (f : File) (idx : Index) (w h : Nat)
    (hbad : (∃ e, f.mimeType = Except.error e) ∨
            (∃ m, f.mimeType = Except.ok m ∧ env.mimeTypeIsSupported m = false)) :
    createThumbnail env f w h idx = (idx, [Event.visit f.id w h], Outcome.normal) := by
  rcases hbad with ⟨e, he⟩ | ⟨m, hm, hs⟩
  · simp [createThumbnail, he]
  · simp [createThumbnail, hm, hs]

/-- Witness for C5: the plain-text file under the JPEG-only environment
is skipped with no output, no index entry and a normal return. -/
theorem unsupportedType_skip_witness :
    createThumbnail envJpegOnly fileText 200 0 [] =
      ([], [Event.visit "notes" 200 0], Outcome.normal) :=
  unsupportedType_skip envJpegOnly fileText [] 200 0 (Or.inr ⟨"text/plain", rfl, rfl⟩)

/-! ### C10: a failed build leaves the opened output target behind -/

/-- C10: for a file/dimension that passes the media-type, route and index
checks and whose output target opens successfully, a failing resize
leaves the log showing the output target was opened (and opened before
the resize was invoked), while the index is left without any entry for
the identity; the model — like the source — has no file-removal
operation, so the created output file persists. -/
theorem failedBuild_leavesOutput (env : Env) (f : File) (w h : Nat) (idx : Index)
    (m fullRoute e : String)
    (hm : f.mimeType = Except.ok m)
    (hsup : env.mimeTypeIsSupported m = true)
    (hcomb : env.combine f.parent f.route = Except.ok fullRoute)
    (hnin : isInIndex idx (thumbFor env f m fullRoute w h) = false)
    (hopen : env.openFile (env.thumbnailFolder ++ "/" ++
        thumbFilename f.id w h (env.getFileExtensionFromMimeType m)) = Except.ok ())
    (hre : env.resize f m w h = Except.error e) :
    createThumbnail env f w h idx =
      (idx, [Event.visit f.id w h,
             Event.openTarget (thumbFor env f m fullRoute w h),
             Event.resizeCall (thumbFor env f m fullRoute w h)],
       Outcome.panicked) ∧
    findIdx idx fullRoute (dimKey w h) = none := by
  refine ⟨?_, notInIndex_findIdx hnin⟩
  simp [createThumbnail, hm, hsup, hcomb, hnin, hopen, hre]

/-- Witness for C10: the failing resize at bounds (400, 0) leaves the
opened target in the log and no index entry. -/
theorem failedBuild_leavesOutput_witness :
    createThumbnail envResizeFail fileJpeg 400 0 [] =
      ([], [Event.visit "abc123" 400 0,
            Event.openTarget
              (thumbFor envResizeFail fileJpeg "image/jpeg" "parent/file.jpg" 400 0),
            Event.resizeCall
              (thumbFor envResizeFail fileJpeg "image/jpeg" "parent/file.jpg" 400 0)],
       Outcome.panicked) ∧
    findIdx ([] : Index) "parent/file.jpg" (dimKey 400 0) = none :=
  failedBuild_leavesOutput envResizeFail fileJpeg 400 0 [] "image/jpeg" "parent/file.jpg"
    "resize failed" rfl rfl rfl rfl rfl rfl

/-! ### C6: the unconditional pass schedule -/

theorem isSchedule_visit (a : String) (b c : Nat) :
    isScheduleEvent (Event.visit a b c) = true := rfl

theorem isSchedule_sleep (n : Nat) : isScheduleEvent (Event.sleep n) = true := rfl

theorem isSchedule_openTarget (t : Thumb) : isScheduleEvent (Event.openTarget t) = false := rfl

theorem isSchedule_resizeCall (t : Thumb) : isScheduleEvent (Event.resizeCall t) = false := rfl

/-- Whatever branch a call takes, its schedule projection is exactly its
entry `visit`. -/
theorem call_schedule (env : Env) (f : File) (w h : Nat) (idx : Index) :
    (createThumbnail env f w h idx).2.1.filter isScheduleEvent = [Event.visit f.id w h] := by
  rcases call_cases env f w h idx with h1 | ⟨t, ht, h2⟩ | ⟨t, ht, h3⟩
  · rw [h1]
    simp [List.filter_cons, List.filter_nil, isSchedule_visit]
  · rw [h2]
    simp [List.filter_cons, List.filter_nil, isSchedule_visit, isSchedule_openTarget,
      isSchedule_resizeCall]
  · rw [h3]
    simp [List.filter_cons, List.filter_nil, isSchedule_visit, isSchedule_openTarget,
      isSchedule_resizeCall]

theorem schedule_thumbStep (env : Env) (f : File) (w h : Nat) {i i2 : Index}
    {L L2 : List Event}
    (hc : thumbStep env f w h (i, L, Outcome.normal) = (i2, L2, Outcome.normal)) :
    L2.filter isScheduleEvent = L.filter isScheduleEvent ++ [Event.visit f.id w h] := by
  simp only [thumbStep] at hc
  have hL : L ++ (createThumbnail env f w h i).2.1 = L2 := congrArg (fun p => p.2.1) hc
  rw [← hL, List.filter_append, call_schedule]

theorem schedule_processFile (env : Env) (f : File) {i i2 : Index} {L L2 : List Event}
    (hc : processFile env f (i, L, Outcome.normal) = (i2, L2, Outcome.normal)) :
    L2.filter isScheduleEvent = L.filter isScheduleEvent ++ fileSchedule f := by
  rcases h1 : thumbStep env f 200 0 (i, L, Outcome.normal) with ⟨ia, La, oa⟩
  cases oa with
  | panicked =>
      exfalso
      have hbad : processFile env f (i, L, Outcome.normal) = (ia, La, Outcome.panicked) := by
        simp [processFile, h1, thumbStep_panic]
      rw [hbad] at hc
      simpa using congrArg (fun p => p.2.2) hc
  | normal =>
  rcases h2 : thumbStep env f 400 0 (ia, La, Outcome.normal) with ⟨ib, Lb, ob⟩
  cases ob with
  | panicked =>
      exfalso
      have hbad : processFile env f (i, L, Outcome.normal) = (ib, Lb, Outcome.panicked) := by
        simp [processFile, h1, h2, thumbStep_panic]
      rw [hbad] at hc
      simpa using congrArg (fun p => p.2.2) hc
  | normal =>
  rcases h3 : thumbStep env f 800 0 (ib, Lb, Outcome.normal) with ⟨ic, Lc, oc⟩
  cases oc with
  | panicked =>
      exfalso
      have hbad : processFile env f (i, L, Outcome.normal) = (ic, Lc, Outcome.panicked) := by
        simp [processFile, h1, h2, h3]
      rw [hbad] at hc
      simpa using congrArg (fun p => p.2.2) hc
  | normal =>
  have hpf : processFile env f (i, L, Outcome.normal) =
      (ic, Lc ++ [Event.sleep 5], Outcome.normal) := by
    simp [processFile, h1, h2, h3]
  rw [hpf] at hc
  have hL2 : Lc ++ [Event.sleep 5] = L2 := congrArg (fun p => p.2.1) hc
  have q1 := schedule_thumbStep env f 200 0 h1
  have q2 := schedule_thumbStep env f 400 0 h2
  have q3 := schedule_thumbStep env f 800 0 h3
  rw [← hL2, List.filter_append, q3, q2, q1]
  simp [fileSchedule, List.filter_cons, List.filter_nil, isSchedule_sleep]

theorem schedule_passFiles (env : Env) (files : List File) {i i2 : Index}
    {L L2 : List Event}
    (hc : passFiles env files (i, L, Outcome.normal) = (i2, L2, Outcome.normal)) :
    L2.filter isScheduleEvent = L.filter isScheduleEvent ++ filesSchedule files := by
  induction files generalizing i L with
  | nil =>
      have : L = L2 := congrArg (fun p => p.2.1) hc
      simp [filesSchedule, ← this]
  | cons f rest ih =>
      rw [passFiles_cons] at hc
      rcases h1 : processFile env f (i, L, Outcome.normal) with ⟨ia, La, oa⟩
      rw [h1] at hc
      cases oa with
      | panicked =>
          exfalso
          rw [passFiles_panic] at hc
          simpa using congrArg (fun p => p.2.2) hc
      | normal =>
          have q1 := schedule_processFile env f h1
          have q2 := ih hc
          rw [q2, q1, filesSchedule, List.append_assoc]

theorem schedule_passItems (env : Env) (items : List Item) {i i2 : Index}
    {L L2 : List Event}
    (hc : passItems env items (i, L, Outcome.normal) = (i2, L2, Outcome.normal)) :
    L2.filter isScheduleEvent = L.filter isScheduleEvent ++ itemsSchedule items := by
  induction items generalizing i L with
  | nil =>
      have : L = L2 := congrArg (fun p => p.2.1) hc
      simp [itemsSchedule, ← this]
  | cons it rest ih =>
      rw [passItems_cons] at hc
      rcases h1 : passFiles env it.files (i, L, Outcome.normal) with ⟨ia, La, oa⟩
      rw [h1] at hc
      cases oa with
      | panicked =>
          exfalso
          rw [passItems_panic] at hc
          simpa using congrArg (fun p => p.2.2) hc
      | normal =>
          have q1 := schedule_passFiles env it.files h1
          have q2 := ih hc
          rw [q2, q1, itemsSchedule, List.append_assoc]

/-- C6: a pass that completes normally visits every item, and every file
of each item, in repository enumeration order; for each file it attempts
exactly the three fixed dimension pairs (200,0), (400,0), (800,0) in that
order, and then sleeps for the fixed 5 time-units — whether or not any
resize work was performed for the file. -/
theorem pass_schedule (env : Env) (items : List Item) (idx : Index)
    (h : (createThumbnails env items idx).2.2 = Outcome.normal) :
    (createThumbnails env items idx).2.1.filter isScheduleEvent = itemsSchedule items := by
  rcases hr : createThumbnails env items idx with ⟨i1, L1, o⟩
  rw [hr] at h
  simp only at h
  rw [h] at hr
  unfold createThumbnails at hr
  have hs := schedule_passItems env items hr
  simpa using hs

/-- Witness for C6: one item with one JPEG file under the all-succeeding
environment. -/
theorem pass_schedule_witness :
    (createThumbnails envOk itemsOne []).2.1.filter isScheduleEvent =
      itemsSchedule itemsOne :=
  pass_schedule envOk itemsOne [] (by rfl)

/-! ### C7: construction fails exactly on directory-creation failure -/

/-- C7: `NewConversionService` yields no service exactly when the
thumbnail directory cannot be created; with the directory available it
always yields a running service whose index is what the tolerant load
returned — in particular the empty index whenever the load reported an
error (missing, unreadable or corrupt index file). -/
theorem construction_failure_iff (meta : String) (loadRes : Index × Option String)
    (dirOk : Bool) (hload : loadTolerant loadRes) :
    (NewConversionService meta loadRes dirOk = none ↔ dirOk = false) ∧
    (dirOk = true → ∃ svc, NewConversionService meta loadRes dirOk = some svc ∧
        svc.isRunning = true ∧
        svc.index = loadRes.1 ∧
        svc.indexFilePath = meta ++ "/thumbnail.index" ∧
        svc.thumbnailFolder = meta ++ "/thumbnails" ∧
        (loadRes.2.isSome = true → svc.index = [])) := by
  cases dirOk with
  | false =>
      refine ⟨by simp [NewConversionService], ?_⟩
      intro h
      exact absurd h (by simp)
  | true =>
      refine ⟨by simp [NewConversionService], ?_⟩
      intro _
      exact ⟨_, rfl, rfl, rfl, rfl, rfl, hload⟩

/-- Witness for C7: with a corrupt index file (load error, empty index)
construction still succeeds when the directory is available, yielding the
fresh empty index, and fails when the directory cannot be created. -/
theorem construction_failure_iff_witness :
    NewConversionService "meta" (([] : Index), some "index corrupt") true =
      some { isRunning := true, indexFilePath := "meta/thumbnail.index",
             index := [], thumbnailFolder := "meta/thumbnails" } ∧
    NewConversionService "meta" (([] : Index), some "index corrupt") false = none := by
  obtain ⟨-, hsome⟩ :=
    construction_failure_iff "meta" (([] : Index), some "index corrupt") true (fun _ => rfl)
  obtain ⟨h2, -⟩ :=
    construction_failure_iff "meta" (([] : Index), some "index corrupt") false (fun _ => rfl)
  obtain ⟨svc, hs, hrun, hidx, hpath, hfold, -⟩ := hsome rfl
  refine ⟨?_, h2.mpr rfl⟩
  rw [hs]
  rcases svc with ⟨a, b, c, d⟩
  simp only at hrun hidx hpath hfold
  subst hrun; subst hidx; subst hpath; subst hfold
  rfl

/-! ### C8: deterministic artifact naming -/

/-- C8: on a successful build, the record inserted for the identity
carries the artifact name `<fileId>-<maxWidth>-<maxHeight>.<ext>`, where
`ext` is resolved from the media type. -/
theorem deterministic_naming (env : Env) (f : File) (w h : Nat) (idx : Index)
    (m fullRoute : String)
    (hm : f.mimeType = Except.ok m)
    (hsup : env.mimeTypeIsSupported m = true)
    (hcomb : env.combine f.parent f.route = Except.ok fullRoute)
    (hnin : isInIndex idx (thumbFor env f m fullRoute w h) = false)
    (hopen : env.openFile (env.thumbnailFolder ++ "/" ++
        thumbFilename f.id w h (env.getFileExtensionFromMimeType m)) = Except.ok ())
    (hre : env.resize f m w h = Except.ok ()) :
    findIdx (createThumbnail env f w h idx).1 fullRoute (dimKey w h) =
      some { route := fullRoute
             fileName := f.id ++ "-" ++ Nat.repr w ++ "-" ++ Nat.repr h ++ "." ++
               env.getFileExtensionFromMimeType m
             maxWidth := w, maxHeight := h } := by
  simp only [createThumbnail, hm, hsup, hcomb, hnin, hopen, hre]
  have hself := findIdx_addToIndex_self idx (thumbFor env f m fullRoute w h)
  simpa [thumbFor, newThumb, thumbFilename] using hself

/-- Witness for C8: fileId `abc123`, width 200, height 0, extension `jpg`
yield exactly the artifact name `abc123-200-0.jpg`. -/
theorem deterministic_naming_witness :
    findIdx (createThumbnail envOk fileJpeg 200 0 []).1 "parent/file.jpg" (dimKey 200 0) =
      some { route := "parent/file.jpg", fileName := "abc123-200-0.jpg",
             maxWidth := 200, maxHeight := 0 } :=
  deterministic_naming envOk fileJpeg 200 0 [] "image/jpeg" "parent/file.jpg"
    rfl rfl rfl rfl rfl rfl

/-! ### C9: notification-triggered passes -/

/-- C9: the worker starts with exactly one pass already run; a
notification always leaves a signal buffered (never lost); a second
notification before the worker drains coalesces into the same single
buffered signal; a notification by itself runs no pass; one drain runs
exactly one additional pass when the run flag is up and a signal is
pending (consuming the signal) and runs none otherwise; and once the run
flag is down, draining does nothing. -/
theorem notification_triggering :
    startConversionState.passes = 1 ∧
    (∀ s : WorkerState, (workerStep s WorkerOp.notify).buffered = true) ∧
    (∀ s : WorkerState,
        workerStep (workerStep s WorkerOp.notify) WorkerOp.notify =
          workerStep s WorkerOp.notify) ∧
    (∀ s : WorkerState, (workerStep s WorkerOp.notify).passes = s.passes) ∧
    (∀ s : WorkerState, (workerStep s WorkerOp.drain).passes =
        if s.isRunning && s.buffered then s.passes + 1 else s.passes) ∧
    (∀ s : WorkerState, (workerStep s WorkerOp.drain).buffered =
        if s.isRunning && s.buffered then false else s.buffered) ∧
    (∀ (b : Bool) (n : Nat),
        workerStep { isRunning := false, buffered := b, passes := n } WorkerOp.drain =
          { isRunning := false, buffered := b, passes := n }) := by
  refine ⟨rfl, fun s => rfl, fun s => rfl, fun s => rfl, fun s => ?_, fun s => ?_,
    fun b n => ?_⟩
  · cases hb : s.isRunning && s.buffered <;> simp [workerStep, hb]
  · cases hb : s.isRunning && s.buffered <;> simp [workerStep, hb]
  · simp [workerStep]

end Allmark
